import Mathlib

/-!
Verification of the flask-kit repository's query-selector grammar, router
pipeline, access control and response formatter, as a shallow embedding.

Python strings are modelled as lists of characters (`Str`), Python `None`
as `Option.none` or the `Py.none` constructor of the dynamic value type,
and the werkzeug query-parameter multi-map as an ordered association list
from keys to value lists.

The repository ships two copies of the selector module:
  - `src/flask_kit/simple_router.py` (embedded in namespace `FlaskKit`),
  - `src/flask_kit/simple_router/simple_router.py` (embedded in
    namespace `FlaskKit.V2`).
The two copies differ in `Selector.offset`, `Selector.filter` and
`Selector.sort`; both are embedded below so the divergences can be stated
precisely.
-/

namespace FlaskKit

/-- Python `str` modelled as a list of characters. -/
abbrev Str := List Char

/-- Coerce a Lean string literal into the `Str` model. -/
def pystr (x : String) : Str := x.toList

/-- Characters stripped by Python's `str.strip()` (ASCII whitespace:
space, tab, newline, carriage return, vertical tab, form feed). -/
def isPySpace (c : Char) : Bool :=
  c == ' ' || c == '\t' || c == '\n' || c == '\r' ||
    c == Char.ofNat 11 || c == Char.ofNat 12

/-- Python `str.strip()`: drop leading and trailing whitespace. -/
def pyStrip (l : Str) : Str :=
  ((l.dropWhile isPySpace).reverse.dropWhile isPySpace).reverse

/-- Split a string at the FIRST occurrence of `sep`, as Python's
`raw.split(sep, 1)` does; `none` models `sep not in raw`. -/
def splitFirst (sep : Char) : Str → Option (Str × Str)
  | [] => Option.none
  | c :: rest =>
    if c = sep then some ([], rest)
    else
      match splitFirst sep rest with
      | Option.none => Option.none
      | some p => some (c :: p.1, p.2)

/-- Accumulator for `pySplit` (collects the current segment reversed). -/
def pySplitAux (sep : Char) : Str → Str → List Str
  | [], acc => [acc.reverse]
  | c :: rest, acc =>
    if c = sep then acc.reverse :: pySplitAux sep rest []
    else pySplitAux sep rest (c :: acc)

/-- Python `str.split(sep)` with an explicit separator: keeps empty
segments, and the empty string splits to one empty segment. -/
def pySplit (sep : Char) (l : Str) : List Str := pySplitAux sep l []

/-- Numeric value of a list of decimal digit characters. -/
def digitsVal (l : Str) : Int :=
  Int.ofNat (l.foldl (fun acc c => acc * 10 + (c.toNat - ('0').toNat)) 0)

/-- Python `int(s)` on a string: strips whitespace, accepts an optional
sign followed by at least one decimal digit, fails otherwise. -/
def pyIntParse (l : Str) : Option Int :=
  let t := pyStrip l
  match t with
  | '+' :: rest =>
    if rest ≠ [] ∧ rest.all Char.isDigit then some (digitsVal rest) else Option.none
  | '-' :: rest =>
    if rest ≠ [] ∧ rest.all Char.isDigit then some (-(digitsVal rest)) else Option.none
  | _ =>
    if t ≠ [] ∧ t.all Char.isDigit then some (digitsVal t) else Option.none

/-- Source `is_non_neg_int(value)`: `int(value) >= 0`, with `ValueError`
and `TypeError` (the `None` case) caught and turned into `False`. -/
def is_non_neg_int (value : Option Str) : Bool :=
  match value with
  | Option.none => false
  | some l =>
    match pyIntParse l with
    | Option.none => false
    | some n => decide (0 ≤ n)

/-- Source `qualified_value(raw_value, valid, qualifier_first, default)`
(identical in both copies of the module): split the raw string at the
first separator, take the part designated by `qualifier_first` as the
candidate qualifier, and fall back to `(default, raw.strip())` when there
is no separator or the candidate is not a valid qualifier. -/
def qualified_value (raw_value : Str) (valid : List Str)
    (qualifier_first : Bool) (default : Str) : Str × Str :=
  match splitFirst ':' raw_value with
  | Option.none => (default, pyStrip raw_value)
  | some parts =>
    let qualifier := if qualifier_first then pyStrip parts.1 else pyStrip parts.2
    let value := if qualifier_first then pyStrip parts.2 else pyStrip parts.1
    if qualifier ∈ valid then (qualifier, value)
    else (default, pyStrip raw_value)

/-- The werkzeug request-argument multi-map: an ordered association list
of distinct keys, each with its ordered list of value occurrences
(`keys()` iteration order, `getlist` per-key order). -/
structure Args where
  pairs : List (Str × List Str)
deriving DecidableEq

/-- Werkzeug `MultiDict.get(key, default=None)`: the first value stored
under the key, or `none` when the key is missing. -/
def argsGet (a : Args) (k : Str) : Option Str :=
  match a.pairs.find? (fun p => decide (p.1 = k)) with
  | Option.none => Option.none
  | some p => p.2.head?

/-- The `only is not None and key not in only` guard shared by `filter`
and `sort`. -/
def onlyExcludes (only : Option (List Str)) (key : Str) : Bool :=
  match only with
  | Option.none => false
  | some o => decide (key ∉ o)

/-- Python `(mapping or dict()).get(key, key)`. -/
def mapLookup (mapping : Option (List (Str × Str))) (key : Str) : Str :=
  match mapping with
  | Option.none => key
  | some m =>
    match m.find? (fun p => decide (p.1 = key)) with
    | Option.none => key
    | some p => p.2

/-- Class attribute `Selector.filter_ops` (same in both copies). -/
def filter_ops : List Str :=
  [pystr "eq", pystr "in", pystr "nin", pystr "lt", pystr "le",
   pystr "gt", pystr "ge", pystr "ne", pystr "not"]

/-- Class attribute `Selector.sort_dir` (same in both copies). -/
def sort_dir : List Str := [pystr "asc", pystr "desc"]

/-- A filter value is either the parsed string or, for `in`/`nin`, a list
of comma-separated segments. -/
inductive FilterValue where
  | str (s : Str)
  | strs (l : List Str)
deriving DecidableEq

/-- One parsed filter comparison `{'field': _, 'op': _, 'value': _}`. -/
structure FilterDescriptor where
  field : Str
  op : Str
  value : FilterValue
deriving DecidableEq

/-- Loop body shared by both copies of `Selector.filter`: build the
descriptor for one value occurrence `arg` under parameter `key`. -/
def filter_item (mapping : Option (List (Str × Str))) (key arg : Str) :
    FilterDescriptor :=
  let final_key := mapLookup mapping key
  let qv := qualified_value arg filter_ops true (pystr "eq")
  if qv.1 = pystr "in" ∨ qv.1 = pystr "nin" then
    { field := final_key, op := qv.1,
      value := FilterValue.strs
        (((pySplit ',' qv.2).map pyStrip).filter (fun t => decide (t ≠ []))) }
  else
    { field := final_key, op := qv.1, value := FilterValue.str qv.2 }

/-- Python dict update `d[k] = v`: overwrite in place when the key is
present (keeping its position), append otherwise. -/
def dictInsert {α β : Type} [DecidableEq α]
    (d : List (α × β)) (k : α) (v : β) : List (α × β) :=
  if d.any (fun p => decide (p.1 = k)) then
    d.map (fun p => if p.1 = k then (k, v) else p)
  else d ++ [(k, v)]

/-- Python dict lookup `d.get(k)`. -/
def dictGet {α β : Type} [DecidableEq α]
    (d : List (α × β)) (k : α) : Option β :=
  match d.find? (fun p => decide (p.1 = k)) with
  | Option.none => Option.none
  | some p => some p.2

/-- One `final_sorting[final_key]` entry of the flat copy's
`Selector.sort`: `{'direction': _, 'value': _}`. -/
structure SortEntry where
  direction : Str
  value : Str
deriving DecidableEq

namespace Selector

/-- Flat copy, `Selector.limit`: the `limit` parameter as a non-negative
integer, else `None`. -/
def limit (a : Args) : Option Int :=
  let limit_value := argsGet a (pystr "limit")
  if is_non_neg_int limit_value then limit_value.bind pyIntParse
  else Option.none

/-- Flat copy, `Selector.offset`: reads `args.get('marker', '')` and
returns it as a non-negative integer, else `None`. -/
def offset (a : Args) : Option Int :=
  let marker_value := (argsGet a (pystr "marker")).getD []
  if is_non_neg_int (some marker_value) then pyIntParse marker_value
  else Option.none

/-- Flat copy, `Selector.filter`: for every key and every value
occurrence under it, apply the `only` guard and emit a descriptor. -/
def filter (a : Args) (only : Option (List Str))
    (mapping : Option (List (Str × Str))) : List FilterDescriptor :=
  (a.pairs.map (fun p =>
    p.2.filterMap (fun arg =>
      if onlyExcludes only p.1 then Option.none
      else some (filter_item mapping p.1 arg)))).flatten

/-- Flat copy, `Selector.sort`: builds a dict keyed by
`(mapping or dict()).get(key, key)` for each comma token `key` of the
single `sort` parameter, with `{'direction': _, 'value': _}` entries;
the dict is modelled as an insertion-ordered association list built with
Python dict-update semantics. -/
def sort (a : Args) (only : Option (List Str))
    (mapping : Option (List (Str × Str))) : List (Str × SortEntry) :=
  match argsGet a (pystr "sort") with
  | Option.none => []
  | some sort_val =>
    if sort_val = [] then []
    else
      (pySplit ',' sort_val).foldl (fun acc key =>
        if onlyExcludes only key then acc
        else
          let final_key := mapLookup mapping key
          let qv := qualified_value key sort_dir false (pystr "desc")
          dictInsert acc final_key { direction := qv.1, value := qv.2 }) []

end Selector

/-- One `{'field': _, 'direction': _}` sort descriptor of the packaged
copy's `Selector.sort`. -/
structure SortDescriptor where
  field : Str
  direction : Str
deriving DecidableEq

namespace V2

/-- Packaged copy, `Selector.offset`: reads `args.get('offset', None)`
and returns it as a non-negative integer, else `None`. -/
def offset (a : Args) : Option Int :=
  let offset_value := argsGet a (pystr "offset")
  if is_non_neg_int offset_value then offset_value.bind pyIntParse
  else Option.none

/-- Packaged copy, `Selector.filter`: skips falsy (empty) keys and
`only`-excluded keys before iterating the value occurrences. -/
def filter (a : Args) (only : Option (List Str))
    (mapping : Option (List (Str × Str))) : List FilterDescriptor :=
  (a.pairs.map (fun p =>
    if p.1 = [] ∨ onlyExcludes only p.1 = true then []
    else p.2.map (fun arg => filter_item mapping p.1 arg))).flatten

/-- Packaged copy, `Selector.sort`: splits the `sort` parameter on
commas, skips falsy (empty) and `only`-excluded tokens, parses each token
with direction as the suffix qualifier, remaps the parsed field through
`mapping`, and appends `{'field': _, 'direction': _}` descriptors in
order. (When the `sort` parameter is missing or empty the source returns
an empty dict; the empty result is modelled as the empty list.) -/
def sort (a : Args) (only : Option (List Str))
    (mapping : Option (List (Str × Str))) : List SortDescriptor :=
  match argsGet a (pystr "sort") with
  | Option.none => []
  | some sort_val =>
    if sort_val = [] then []
    else
      (pySplit ',' sort_val).filterMap (fun key =>
        if key = [] ∨ onlyExcludes only key = true then Option.none
        else
          let qv := qualified_value key sort_dir false (pystr "desc")
          let final_key := mapLookup mapping qv.2
          some { field := final_key, direction := qv.1 })

end V2

/-! ### Dynamic Python values

`Py` models the Python values that flow through the router, the access
control decorators and the response formatter: `None`, booleans,
integers, strings, lists, and string-keyed dicts (modelled as ordered
association lists, as Python dicts preserve insertion order). -/

inductive Py where
  | none
  | bool (b : Bool)
  | int (n : Int)
  | str (s : Str)
  | list (l : List Py)
  | dict (d : List (Str × Py))

/-- Python truthiness of a `Py` value. -/
def pyTruthy : Py → Bool
  | Py.none => false
  | Py.bool b => b
  | Py.int n => decide (n ≠ 0)
  | Py.str s => !s.isEmpty
  | Py.list l => !l.isEmpty
  | Py.dict d => !d.isEmpty

/-- Recognizer for the `None` value (`v is None`). -/
def isNone : Py → Bool
  | Py.none => true
  | _ => false

/-- Python `body == ''` on a `Py` value. -/
def isEmptyStr : Py → Bool
  | Py.str [] => true
  | _ => false

/-! ### Access control (`src/flask_kit/bac.py`) -/

/-- A permission set passed to `allow`/`deny`: a single flag, or a list
of flags all of which must be present (`isinstance(perm, list)`). -/
inductive Perm where
  | flag (p : Str)
  | group (l : List Str)
deriving DecidableEq

/-- The `perm if isinstance(perm, list) else [perm]` normalization inside
`_check_permissions`. -/
def permList : Perm → List Str
  | Perm.flag p => [p]
  | Perm.group l => l

/-- Source `_check_permissions(permissions, match, no_match, user_perm)`:
call `match()` as soon as one permission set has all its flags in
`user_perm`, else `no_match()` after the loop. -/
def check_permissions {α : Type} (permissions : List Perm)
    (matched no_match : Unit → α) (user_perm : List Str) : α :=
  match permissions with
  | [] => no_match ()
  | perm :: rest =>
    if (permList perm).all (fun p => decide (p ∈ user_perm)) then matched ()
    else check_permissions rest matched no_match user_perm

/-- Class attribute `BasicAccessControl.default_denied_response`. -/
def default_denied_response : Py × Int :=
  (Py.dict [(pystr "error", Py.str (pystr "access_denied"))], 403)

/-- Source `BasicAccessControl._denied`: the custom denied callback's
response when one was configured, else the default denial. -/
def bac_denied (custom_denied : Option (Py × Int)) : Py × Int :=
  match custom_denied with
  | Option.none => default_denied_response
  | some c => c

/-- One invocation of a handler wrapped by `BasicAccessControl.allow`
(with the default `arg_name=None`, so the handler receives its original
arguments): `user_perm` is the permission list returned by the fresh
`self._get_permissions()` call made at this invocation.  `Sum.inl`
carries the handler's response, `Sum.inr` the denial response. -/
def allow_invoke {ρ : Type} (permissions : List Perm)
    (custom_denied : Option (Py × Int)) (user_perm : List Str)
    (handler : Unit → ρ) : Sum ρ (Py × Int) :=
  check_permissions permissions
    (fun u => Sum.inl (handler u))
    (fun _ => Sum.inr (bac_denied custom_denied))
    user_perm

/-! ### Router validation pipeline (`src/flask_kit/router.py`) -/

/-- Source `make_error(error, status=400)`. -/
def make_error (error : Py) (status : Int) : Py × Int :=
  (Py.dict [(pystr "success", Py.bool false), (pystr "error", error)], status)

/-- Outcome of the external schema validator (cerberus, out of scope per
the spec): `validator.validate(doc)` returning `True` exposes the
normalized `validator.document`, returning `False` exposes
`validator.errors`. -/
inductive ValidationOutcome where
  | ok (document : Py)
  | failed (errors : Py)

/-- The `input_json or {}` coercion applied to the best-effort JSON body
parse before validation (a failed parse yields `None`, which is falsy). -/
def orEmptyDict (v : Py) : Py := if pyTruthy v then v else Py.dict []

/-- Source `decorated_route` built by `Router.route` (with no global
decorator configured): when a validator is present, validate the parsed
request body, short-circuit to `make_error(validator.errors)` on failure,
and otherwise merge `{data_key: validator.document}` over the call's
keyword arguments (`{**kwargs, **new_kwargs}`) before invoking the
handler.  `Sum.inl` is the short-circuit error response, `Sum.inr` the
handler's response. -/
def decorated_route {ρ : Type} (validator : Option (Py → ValidationOutcome))
    (body : Py) (data_key : Str) (kwargs : List (Str × Py))
    (handler : List (Str × Py) → ρ) : Sum (Py × Int) ρ :=
  match validator with
  | Option.none => Sum.inr (handler kwargs)
  | some v =>
    match v (orEmptyDict body) with
    | ValidationOutcome.failed errs => Sum.inl (make_error errs 400)
    | ValidationOutcome.ok doc => Sum.inr (handler (dictInsert kwargs data_key doc))

/-! ### Response formatter (`src/flask_kit/json_formatter.py`) -/

/-- Module constant `_text_mime`. -/
def text_mime : Str := pystr "text/plain"

/-- Module constant `_json_mime`. -/
def json_mime : Str := pystr "application/json"

/-- JSON string escaping as performed by `json.dumps` (restricted to the
quote and backslash escapes; the bodies in this development contain no
control characters). -/
def jsonEscape (s : Str) : Str :=
  s.flatMap (fun c =>
    if c = '"' then ['\\', '"']
    else if c = '\\' then ['\\', '\\'] else [c])

/-- Decimal rendering of an integer. -/
def intToStr (n : Int) : Str :=
  if n < 0 then '-' :: Nat.toDigits 10 (-n).toNat
  else Nat.toDigits 10 n.toNat

/-- Comma-space separated concatenation, as `json.dumps`'s default item
separator produces. -/
def joinComma (l : List Str) : Str := String.toList (String.intercalate ", " (l.map List.asString))

mutual

/-- `json.dumps(value)` on the `Py` fragment (no custom-encoder hooks are
needed by the values in this development). -/
def json_dumps : Py → Str
  | Py.none => pystr "null"
  | Py.bool true => pystr "true"
  | Py.bool false => pystr "false"
  | Py.int n => intToStr n
  | Py.str s => '"' :: (jsonEscape s ++ ['"'])
  | Py.list l => '[' :: (joinComma (json_dumps_list l) ++ [']'])
  | Py.dict d => Char.ofNat 123 :: (joinComma (json_dumps_pairs d) ++ [Char.ofNat 125])

/-- `json.dumps` over the elements of a list. -/
def json_dumps_list : List Py → List Str
  | [] => []
  | x :: xs => json_dumps x :: json_dumps_list xs

/-- `json.dumps` over the entries of a dict. -/
def json_dumps_pairs : List (Str × Py) → List Str
  | [] => []
  | p :: ps => ('"' :: (jsonEscape p.1 ++ ['"', ':', ' '] ++ json_dumps p.2)) :: json_dumps_pairs ps

end

/-- The shapes a handler's raw return value can take: `None`, a bare
non-tuple payload, or a tuple of one to three components. -/
inductive Resp where
  | noresp
  | val (v : Py)
  | tup1 (a : Py)
  | tup2 (a b : Py)
  | tup3 (a b c : Py)

/-- One component of `merge_tuples`: `value if value is not None else
default`. -/
def mergeComponent (default : Py) (v : Py) : Py :=
  if isNone v then default else v

/-- Source `merge_tuples(('', 200, {}), resp)`: wrap a non-tuple response
into a 1-tuple and pad with the defaults via `zip_longest`. -/
def merge_tuples (resp : Resp) : Py × Py × Py :=
  match resp with
  | Resp.noresp => (Py.str [], Py.int 200, Py.dict [])
  | Resp.val v => (mergeComponent (Py.str []) v, Py.int 200, Py.dict [])
  | Resp.tup1 a => (mergeComponent (Py.str []) a, Py.int 200, Py.dict [])
  | Resp.tup2 a b =>
    (mergeComponent (Py.str []) a, mergeComponent (Py.int 200) b, Py.dict [])
  | Resp.tup3 a b c =>
    (mergeComponent (Py.str []) a, mergeComponent (Py.int 200) b,
      mergeComponent (Py.dict []) c)

/-- Source `isinstance(resp, tuple) and len(resp) >= 2`. -/
def has_status : Resp → Bool
  | Resp.tup2 _ _ => true
  | Resp.tup3 _ _ _ => true
  | _ => false

/-- Source `resp is None`. -/
def isNoResp : Resp → Bool
  | Resp.noresp => true
  | _ => false

/-- The final header dict `{**_default_headers, 'Content-Type':
content_type, **headers}` (`_default_headers` is the empty dict), built
with Python dict-literal update semantics. -/
def mergeHeaders (content_type : Str) (headers : List (Str × Py)) :
    List (Str × Py) :=
  headers.foldl (fun acc p => dictInsert acc p.1 p.2)
    [(pystr "Content-Type", Py.str content_type)]

/-- Body/status/header assembly of `make_response` after the tuple merge:
force the 204 status for `None`/bare-empty responses, serialize non-string
bodies to JSON (switching the content type), and merge the headers. -/
def respond_core (body0 status0 : Py) (headers : List (Str × Py))
    (no_resp hst : Bool) : Py × Py × List (Str × Py) :=
  let status1 := if no_resp || (isEmptyStr body0 && !hst)
    then Py.int 204 else status0
  match body0 with
  | Py.str s => (Py.str s, status1, mergeHeaders text_mime headers)
  | b => (Py.str (json_dumps b), status1, mergeHeaders json_mime headers)

/-- Source `make_response(resp)`: merge the response against the defaults
`('', 200, {})` and assemble the `(body, status, headers)` triple.
`Option.none` models the `TypeError` raised by `{**headers}` when the
headers component is not a dict. -/
def make_response (resp : Resp) : Option (Py × Py × Py) :=
  let m := merge_tuples resp
  match m.2.2 with
  | Py.dict hs =>
    let r := respond_core m.1 m.2.1 hs (isNoResp resp) (has_status resp)
    some (r.1, r.2.1, Py.dict r.2.2)
  | _ => Option.none

/-! ### Supporting lemmas -/

theorem splitFirst_eq_none {sep : Char} :
    ∀ {l : Str}, sep ∉ l → splitFirst sep l = Option.none
  | [], _ => rfl
  | c :: rest, h => by
    have hc : ¬ c = sep := fun hh => h (by simp [hh])
    have hr : sep ∉ rest := fun hh => h (List.mem_cons_of_mem _ hh)
    simp [splitFirst, hc, splitFirst_eq_none hr]

theorem splitFirst_append {sep : Char} :
    ∀ {q : Str} (v : Str), sep ∉ q → splitFirst sep (q ++ sep :: v) = some (q, v)
  | [], v, _ => by simp [splitFirst]
  | c :: q, v, h => by
    have hc : ¬ c = sep := fun hh => h (by simp [hh])
    have hq : sep ∉ q := fun hh => h (List.mem_cons_of_mem _ hh)
    simp [splitFirst, hc, splitFirst_append v hq]

theorem dictGet_map_overwrite {α β : Type} [DecidableEq α] (k : α) (v : β) :
    ∀ (d : List (α × β)), d.any (fun p => decide (p.1 = k)) = true →
      dictGet (d.map (fun p => if p.1 = k then (k, v) else p)) k = some v
  | [], h => by simp at h
  | p :: rest, h => by
    by_cases hp : p.1 = k
    · simp [dictGet, List.find?, hp]
    · have hrest : rest.any (fun p => decide (p.1 = k)) = true := by
        simpa [List.any_cons, hp] using h
      simpa [dictGet, List.find?, hp] using dictGet_map_overwrite k v rest hrest

theorem dictGet_append_last {α β : Type} [DecidableEq α] (k : α) (v : β) :
    ∀ (d : List (α × β)), d.any (fun p => decide (p.1 = k)) = false →
      dictGet (d ++ [(k, v)]) k = some v
  | [], _ => by simp [dictGet, List.find?]
  | p :: rest, h => by
    have hp : ¬ p.1 = k := by
      intro hh
      simp [List.any_cons, hh] at h
    have hrest : rest.any (fun p => decide (p.1 = k)) = false := by
      simpa [List.any_cons, hp] using h
    simpa [dictGet, List.find?, hp] using dictGet_append_last k v rest hrest

/-- Python dict-update semantics: after `d[k] = v`, looking up `k`
yields `v`. -/
theorem dictGet_dictInsert {α β : Type} [DecidableEq α]
    (d : List (α × β)) (k : α) (v : β) :
    dictGet (dictInsert d k v) k = some v := by
  unfold dictInsert
  by_cases h : d.any (fun p => decide (p.1 = k)) = true
  · rw [if_pos h]
    exact dictGet_map_overwrite k v d h
  · rw [if_neg h]
    exact dictGet_append_last k v d (Bool.not_eq_true _ ▸ eq_false_of_ne_true h)

/-- Evaluating either copy's `filter` on a single-occurrence multi-map
with no `only` restriction yields exactly the descriptor built by the
loop body. -/
theorem filter_singleton (k arg : Str) :
    Selector.filter ⟨[(k, [arg])]⟩ Option.none Option.none =
      [filter_item Option.none k arg] := rfl

theorem check_permissions_of_match {α : Type} (matched no_match : Unit → α)
    (up : List Str) :
    ∀ (ps : List Perm), (∃ perm ∈ ps, ∀ p ∈ permList perm, p ∈ up) →
      check_permissions ps matched no_match up = matched ()
  | [], h => absurd h (by simp)
  | perm :: rest, h => by
    unfold check_permissions
    split
    · rfl
    case isFalse hf =>
      apply check_permissions_of_match matched no_match up rest
      rcases h with ⟨p0, hp0, hall⟩
      rcases List.mem_cons.mp hp0 with heq | hmem
      · subst heq
        exact absurd (by simpa [List.all_eq_true] using hall) hf
      · exact ⟨p0, hmem, hall⟩

theorem check_permissions_of_no_match {α : Type} (matched no_match : Unit → α)
    (up : List Str) :
    ∀ (ps : List Perm), (¬ ∃ perm ∈ ps, ∀ p ∈ permList perm, p ∈ up) →
      check_permissions ps matched no_match up = no_match ()
  | [], _ => rfl
  | perm :: rest, h => by
    unfold check_permissions
    split
    case isTrue htr =>
      exact absurd ⟨perm, List.mem_cons_self perm rest,
        by simpa [List.all_eq_true] using htr⟩ h
    case isFalse hf =>
      exact check_permissions_of_no_match matched no_match up rest
        (fun hex => h ⟨hex.choose,
          List.mem_cons_of_mem _ hex.choose_spec.1, hex.choose_spec.2⟩)

/-- Pairwise-distinct keys of an association list. -/
def KeysDistinct {α β : Type} (d : List (α × β)) : Prop :=
  d.Pairwise (fun p q => p.1 ≠ q.1)

theorem dictInsert_keysDistinct {α β : Type} [DecidableEq α]
    {d : List (α × β)} (k : α) (v : β) (hd : KeysDistinct d) :
    KeysDistinct (dictInsert d k v) := by
  unfold dictInsert
  split
  case isTrue h =>
    have hkey : ∀ p : α × β,
        ((fun p : α × β => if p.1 = k then (k, v) else p) p).1 = p.1 := by
      intro p
      by_cases hp : p.1 = k
      · simp [hp]
      · simp [hp]
    rw [KeysDistinct, List.pairwise_map]
    exact hd.imp (fun {a b} hab => by rw [hkey, hkey]; exact hab)
  case isFalse h =>
    rw [KeysDistinct, List.pairwise_append]
    refine ⟨hd, List.pairwise_singleton _ _, ?_⟩
    intro a ha b hb
    have hak : ¬ a.1 = k := by
      have hfalse : d.any (fun p => decide (p.1 = k)) = false :=
        Bool.eq_false_iff.mpr h
      have := List.any_eq_false.mp hfalse a ha
      simpa using this
    rcases List.mem_singleton.mp hb with rfl
    simpa using hak

theorem dictInsert_cons_head {α β : Type} [DecidableEq α]
    (p : α × β) (rest : List (α × β)) (k : α) (v : β) :
    ∃ q rest2, dictInsert (p :: rest) k v = q :: rest2 ∧ q.1 = p.1 := by
  unfold dictInsert
  split
  · refine ⟨if p.1 = k then (k, v) else p,
      rest.map (fun p => if p.1 = k then (k, v) else p), by simp, ?_⟩
    by_cases hp : p.1 = k
    · simp [hp]
    · simp [hp]
  · exact ⟨p, rest ++ [(k, v)], by simp, rfl⟩

theorem foldl_dictInsert_head {α β : Type} [DecidableEq α] :
    ∀ (l : List (α × β)) (p : α × β) (acc : List (α × β)),
      KeysDistinct (p :: acc) →
      ∃ q rest2, l.foldl (fun a x => dictInsert a x.1 x.2) (p :: acc) =
        q :: rest2 ∧ q.1 = p.1 ∧ KeysDistinct (q :: rest2)
  | [], p, acc, h => ⟨p, acc, rfl, rfl, h⟩
  | x :: l, p, acc, h => by
    obtain ⟨q, rest2, heq, hkey⟩ := dictInsert_cons_head p acc x.1 x.2
    have hdist : KeysDistinct (q :: rest2) := by
      rw [← heq]
      exact dictInsert_keysDistinct x.1 x.2 h
    obtain ⟨q3, rest3, heq3, hkey3, hdist3⟩ :=
      foldl_dictInsert_head l q rest2 hdist
    refine ⟨q3, rest3, ?_, hkey3.trans hkey, hdist3⟩
    rw [List.foldl_cons, heq, heq3]

theorem foldl_dictInsert_of_distinct {α β : Type} [DecidableEq α] :
    ∀ (rest acc : List (α × β)), KeysDistinct (acc ++ rest) →
      rest.foldl (fun a x => dictInsert a x.1 x.2) acc = acc ++ rest
  | [], acc, _ => by simp
  | r :: rest, acc, h => by
    have hne : ∀ a ∈ acc, a.1 ≠ r.1 := by
      intro a ha
      have := (List.pairwise_append.mp h).2.2 a ha r (List.mem_cons_self r rest)
      exact this
    have hany : acc.any (fun p => decide (p.1 = r.1)) = false := by
      rw [List.any_eq_false]
      intro a ha
      simpa using hne a ha
    have hins : dictInsert acc r.1 r.2 = acc ++ [r] := by
      unfold dictInsert
      rw [if_neg (by rw [hany]; exact Bool.false_ne_true)]
    have hd2 : KeysDistinct ((acc ++ [r]) ++ rest) := by
      rw [List.append_assoc, List.singleton_append]
      exact h
    rw [List.foldl_cons, hins,
      foldl_dictInsert_of_distinct rest (acc ++ [r]) hd2,
      List.append_assoc, List.singleton_append]

/-- The header dict produced by `mergeHeaders` always starts with the
`Content-Type` entry and has pairwise-distinct keys. -/
theorem mergeHeaders_shape (content_type : Str) (hs : List (Str × Py)) :
    ∃ v2 rest, mergeHeaders content_type hs =
      (pystr "Content-Type", v2) :: rest ∧
      KeysDistinct ((pystr "Content-Type", v2) :: rest) := by
  obtain ⟨q, rest2, heq, hkey, hdist⟩ :=
    foldl_dictInsert_head hs (pystr "Content-Type", Py.str content_type) []
      (List.pairwise_singleton _ _)
  obtain ⟨q1, q2⟩ := q
  simp only at hkey
  subst hkey
  exact ⟨q2, rest2, heq, hdist⟩

/-- Merging a content type into an already-merged header dict is the
identity: the dict's own `Content-Type` entry wins, in place. -/
theorem mergeHeaders_idem (ct2 ct1 : Str) (hs : List (Str × Py)) :
    mergeHeaders ct2 (mergeHeaders ct1 hs) = mergeHeaders ct1 hs := by
  obtain ⟨v2, rest, heq, hdist⟩ := mergeHeaders_shape ct1 hs
  rw [heq]
  show List.foldl _ _ _ = _
  rw [List.foldl_cons]
  have h1 : dictInsert [(pystr "Content-Type", Py.str ct2)]
      (pystr "Content-Type") v2 = [(pystr "Content-Type", v2)] := by
    simp [dictInsert]
  rw [h1, foldl_dictInsert_of_distinct rest [(pystr "Content-Type", v2)]
    (by rw [List.singleton_append]; exact hdist), List.singleton_append]

theorem isNone_mergeComponent {d v : Py} (hd : isNone d = false) :
    isNone (mergeComponent d v) = false := by
  unfold mergeComponent
  split
  · exact hd
  case isFalse h => exact Bool.eq_false_iff.mpr h

/-- The status component of a merged tuple is never `None`. -/
theorem merge_tuples_status_ne_none (resp : Resp) :
    isNone (merge_tuples resp).2.1 = false := by
  cases resp <;>
    first
      | rfl
      | exact isNone_mergeComponent rfl

/-- `respond_core` always yields a string body, a status that is the
204 override or `status0` verbatim, and headers produced by
`mergeHeaders`. -/
theorem respond_core_spec (body0 status0 : Py) (hs : List (Str × Py))
    (no_resp hst : Bool) :
    ∃ s ct, respond_core body0 status0 hs no_resp hst =
      (Py.str s,
       (if no_resp || (isEmptyStr body0 && !hst) then Py.int 204 else status0),
       mergeHeaders ct hs) := by
  cases body0 <;> exact ⟨_, _, rfl⟩

theorem mergeComponent_of_ne_none {d v : Py} (hv : isNone v = false) :
    mergeComponent d v = v := by
  unfold mergeComponent
  split
  case isTrue h => exact absurd h (by simp [hv])
  · rfl

/-- Refeeding `make_response` a string body, non-`None` status and an
already-merged header dict returns the triple unchanged. -/
theorem make_response_fixed (s : Str) (st : Py) (ct0 : Str)
    (hs0 : List (Str × Py)) (hst : isNone st = false) :
    make_response (Resp.tup3 (Py.str s) st (Py.dict (mergeHeaders ct0 hs0))) =
      some (Py.str s, st, Py.dict (mergeHeaders ct0 hs0)) := by
  unfold make_response
  simp only [merge_tuples, mergeComponent_of_ne_none hst,
    mergeComponent_of_ne_none (v := Py.str s) rfl,
    mergeComponent_of_ne_none (v := Py.dict (mergeHeaders ct0 hs0)) rfl]
  simp [respond_core, has_status, isNoResp, mergeHeaders_idem]

/-! ### Claims -/

/-- C1.  The cited copy of `Selector.sort`
(`src/flask_kit/simple_router.py`) does NOT return an ordered sequence of
`{field, direction}` sort descriptors for `sort=a,b:asc,c:desc`: it
returns a dict keyed by the raw comma tokens whose entries carry
`direction` and the parsed `value`.  The packaged copy
(`src/flask_kit/simple_router/simple_router.py`), which the repository's
`test_sort` test asserts, returns exactly the claimed descriptor
sequence. -/
theorem claim_c1 :
    Selector.sort ⟨[(pystr "sort", [pystr "a,b:asc,c:desc"])]⟩ Option.none Option.none =
      [(pystr "a", { direction := pystr "desc", value := pystr "a" }),
       (pystr "b:asc", { direction := pystr "asc", value := pystr "b" }),
       (pystr "c:desc", { direction := pystr "desc", value := pystr "c" })] ∧
    V2.sort ⟨[(pystr "sort", [pystr "a,b:asc,c:desc"])]⟩ Option.none Option.none =
      [{ field := pystr "a", direction := pystr "desc" },
       { field := pystr "b", direction := pystr "asc" },
       { field := pystr "c", direction := pystr "desc" }] := by
  constructor
  · decide
  · decide

/-- C2.  `qualified_value` on any raw string that does contain the
separator but whose trimmed candidate qualifier is not valid returns
`(default, trim(raw))` — the entire raw string becomes the value; in
particular the filter parameter `c=invalid:c` yields the descriptor
`{field: c, op: eq, value: "invalid:c"}`. -/
theorem claim_c2 (raw_value p1 p2 default : Str) (valid : List Str)
    (qualifier_first : Bool)
    (hsplit : splitFirst ':' raw_value = some (p1, p2))
    (hq : (if qualifier_first then pyStrip p1 else pyStrip p2) ∉ valid) :
    qualified_value raw_value valid qualifier_first default =
      (default, pyStrip raw_value) ∧
    Selector.filter ⟨[(pystr "c", [pystr "invalid:c"])]⟩ Option.none Option.none =
      [{ field := pystr "c", op := pystr "eq",
         value := FilterValue.str (pystr "invalid:c") }] := by
  refine ⟨?_, by decide⟩
  unfold qualified_value
  rw [hsplit]
  simp only
  rw [if_neg hq]

/-- C2 witness: the `c=invalid:c` case instantiated concretely. -/
theorem claim_c2_witness :
    qualified_value (pystr "invalid:c") filter_ops true (pystr "eq") =
      (pystr "eq", pyStrip (pystr "invalid:c")) ∧
    Selector.filter ⟨[(pystr "c", [pystr "invalid:c"])]⟩ Option.none Option.none =
      [{ field := pystr "c", op := pystr "eq",
         value := FilterValue.str (pystr "invalid:c") }] :=
  claim_c2 (pystr "invalid:c") (pystr "invalid") (pystr "c") (pystr "eq")
    filter_ops true (by decide) (by decide)

/-- C3.  The cited copy of `Selector.offset`
(`src/flask_kit/simple_router.py`) reads the `marker` query parameter,
not `offset`: a request carrying only `offset=5` yields `None`, while
`marker=7` yields `7`.  The packaged copy, which the repository's
`test_offset` test asserts, reads `offset` as the claim states. -/
theorem claim_c3 :
    Selector.offset ⟨[(pystr "offset", [pystr "5"])]⟩ = Option.none ∧
    Selector.offset ⟨[(pystr "marker", [pystr "7"])]⟩ = some 7 ∧
    V2.offset ⟨[(pystr "offset", [pystr "5"])]⟩ = some 5 := by
  refine ⟨by decide, by decide, by decide⟩

/-- C4.  Whenever the qualifier resolved by `qualified_value` is `in` or
`nin`, `Selector.filter` re-splits the parsed value on commas, trims each
segment and drops empty segments, producing a list value; in particular
`a=in:1,2,3` yields `{field: a, op: in, value: ['1','2','3']}`. -/
theorem claim_c4 (k arg : Str)
    (hin : (qualified_value arg filter_ops true (pystr "eq")).1 = pystr "in" ∨
           (qualified_value arg filter_ops true (pystr "eq")).1 = pystr "nin") :
    Selector.filter ⟨[(k, [arg])]⟩ Option.none Option.none =
      [{ field := k, op := (qualified_value arg filter_ops true (pystr "eq")).1,
         value := FilterValue.strs
           (((pySplit ',' (qualified_value arg filter_ops true (pystr "eq")).2).map
              pyStrip).filter (fun t => decide (t ≠ []))) }] ∧
    Selector.filter ⟨[(pystr "a", [pystr "in:1,2,3"])]⟩ Option.none Option.none =
      [{ field := pystr "a", op := pystr "in",
         value := FilterValue.strs [pystr "1", pystr "2", pystr "3"] }] := by
  refine ⟨?_, by decide⟩
  rw [filter_singleton]
  simp [filter_item, mapLookup, if_pos hin]

/-- C4 witness: a concrete `nin` filter value instantiating the general
re-split statement. -/
theorem claim_c4_witness :
    Selector.filter ⟨[(pystr "x", [pystr "nin: a, ,b"])]⟩ Option.none Option.none =
      [{ field := pystr "x",
         op := (qualified_value (pystr "nin: a, ,b") filter_ops true (pystr "eq")).1,
         value := FilterValue.strs
           (((pySplit ',' (qualified_value (pystr "nin: a, ,b") filter_ops true
              (pystr "eq")).2).map pyStrip).filter (fun t => decide (t ≠ []))) }] :=
  (claim_c4 (pystr "x") (pystr "nin: a, ,b") (Or.inr (by decide))).1

/-- C5.  For every qualifier `q` of the valid set (a qualifier token:
trimmed and free of the separator) and every payload `v`,
`qualified_value` with qualifier-first splitting returns `(q, trim(v))`,
splitting at the FIRST separator only, so further separators stay inside
`v`; and every raw string with no separator at all yields
`(default, trim(raw))`. -/
theorem claim_c5 (valid : List Str) (q v raw default : Str)
    (qualifier_first : Bool) (hq : q ∈ valid) (hc : ':' ∉ q)
    (ht : pyStrip q = q) (hraw : ':' ∉ raw) :
    qualified_value (q ++ ':' :: v) valid true default = (q, pyStrip v) ∧
    qualified_value raw valid qualifier_first default =
      (default, pyStrip raw) := by
  constructor
  · unfold qualified_value
    rw [splitFirst_append v hc]
    simp only
    rw [ht]
    simp [hq]
  · unfold qualified_value
    rw [splitFirst_eq_none hraw]

/-- C5 witness: `asc:10:30` style input — the valid sort qualifier with a
payload containing a further separator, plus a separator-free raw
string. -/
theorem claim_c5_witness :
    qualified_value (pystr "asc" ++ ':' :: pystr " 10:30 ") sort_dir true
      (pystr "desc") = (pystr "asc", pyStrip (pystr " 10:30 ")) ∧
    qualified_value (pystr " plain ") sort_dir false (pystr "desc") =
      (pystr "desc", pyStrip (pystr " plain ")) :=
  claim_c5 sort_dir (pystr "asc") (pystr " 10:30 ") (pystr " plain ")
    (pystr "desc") false (by decide) (by decide) (by decide) (by decide)

/-- C6.  With a validation schema configured, an invocation whose parsed
body fails validation returns `({success: False, error: <validator's
errors>}, 400)` without invoking the handler (the result does not depend
on the handler), and an invocation whose body passes invokes the handler
with the validated document merged over the call's keyword arguments
under `data_key`, the document winning any key collision. -/
theorem claim_c6 (validate : Py → ValidationOutcome) (body : Py)
    (data_key : Str) (kwargs : List (Str × Py))
    (handler handler2 : List (Str × Py) → Py) :
    (∀ errs, validate (orEmptyDict body) = ValidationOutcome.failed errs →
      decorated_route (some validate) body data_key kwargs handler =
        Sum.inl (Py.dict [(pystr "success", Py.bool false),
          (pystr "error", errs)], 400) ∧
      decorated_route (some validate) body data_key kwargs handler =
        decorated_route (some validate) body data_key kwargs handler2) ∧
    (∀ doc, validate (orEmptyDict body) = ValidationOutcome.ok doc →
      decorated_route (some validate) body data_key kwargs handler =
        Sum.inr (handler (dictInsert kwargs data_key doc)) ∧
      dictGet (dictInsert kwargs data_key doc) data_key = some doc) := by
  constructor
  · intro errs he
    constructor
    · simp [decorated_route, he, make_error]
    · simp [decorated_route, he]
  · intro doc hd
    exact ⟨by simp [decorated_route, hd], dictGet_dictInsert kwargs data_key doc⟩

/-- C6 witness: a concretely failing validator short-circuits to the 400
error response. -/
theorem claim_c6_witness :
    decorated_route (some (fun _ => ValidationOutcome.failed
        (Py.str (pystr "bad")))) Py.none (pystr "data") []
        (fun _ => Py.none) =
      Sum.inl (Py.dict [(pystr "success", Py.bool false),
        (pystr "error", Py.str (pystr "bad"))], 400) :=
  ((claim_c6 (fun _ => ValidationOutcome.failed (Py.str (pystr "bad")))
    Py.none (pystr "data") [] (fun _ => Py.none) (fun _ => Py.int 0)).1
    (Py.str (pystr "bad")) rfl).1

/-- C7.  A handler wrapped by `BasicAccessControl.allow` runs exactly
when some permission set (single flag, or list of flags all required) is
fully contained in the permission list returned by the per-call
`get_permissions` lookup; otherwise the invocation returns the denial
response — the caller-supplied one when configured, else
`({error: access_denied}, 403)`. -/
theorem claim_c7 (permissions : List Perm) (custom_denied : Option (Py × Int))
    (user_perm : List Str) (handler : Unit → Py) :
    (allow_invoke permissions custom_denied user_perm handler =
        Sum.inl (handler ()) ↔
      ∃ perm ∈ permissions, ∀ p ∈ permList perm, p ∈ user_perm) ∧
    ((¬ ∃ perm ∈ permissions, ∀ p ∈ permList perm, p ∈ user_perm) →
      allow_invoke permissions custom_denied user_perm handler =
        Sum.inr (bac_denied custom_denied)) ∧
    bac_denied Option.none =
      (Py.dict [(pystr "error", Py.str (pystr "access_denied"))], 403) := by
  refine ⟨⟨?_, ?_⟩, ?_, rfl⟩
  · intro heq
    by_contra hne
    rw [allow_invoke, check_permissions_of_no_match _ _ _ _ hne] at heq
    exact Sum.noConfusion heq
  · intro hex
    rw [allow_invoke, check_permissions_of_match _ _ _ _ hex]
  · intro hne
    rw [allow_invoke, check_permissions_of_no_match _ _ _ _ hne]

/-- C7 witness: a caller without the required flag is denied with the
default response. -/
theorem claim_c7_witness :
    allow_invoke [Perm.flag (pystr "admin")] Option.none [pystr "user"]
      (fun _ => Py.int 1) = Sum.inr (bac_denied Option.none) :=
  (claim_c7 [Perm.flag (pystr "admin")] Option.none [pystr "user"]
    (fun _ => Py.int 1)).2.1 (by decide)

/-- C8.  The cited copy of `Selector.filter`
(`src/flask_kit/simple_router.py`) does NOT skip the empty parameter
key: a multi-map carrying a value under the key `''` produces a
descriptor with field `''`.  The packaged copy skips it as the claim
states.  Keys excluded by a non-`None` `only` set produce no descriptors
in either copy. -/
theorem claim_c8 :
    Selector.filter ⟨[([], [pystr "5"])]⟩ Option.none Option.none =
      [{ field := [], op := pystr "eq", value := FilterValue.str (pystr "5") }] ∧
    V2.filter ⟨[([], [pystr "5"])]⟩ Option.none Option.none = [] ∧
    Selector.filter ⟨[(pystr "b", [pystr "1"])]⟩ (some [pystr "a"])
      Option.none = [] ∧
    V2.filter ⟨[(pystr "b", [pystr "1"])]⟩ (some [pystr "a"])
      Option.none = [] := by
  refine ⟨by decide, by decide, by decide, by decide⟩

/-- C9.  `make_response` is idempotent on its own output: formatting an
already-formatted `(body, status, headers)` triple again returns exactly
the same triple — same body string, same status, same headers dict. -/
theorem claim_c9 (resp : Resp) (t : Py × Py × Py)
    (h : make_response resp = some t) :
    make_response (Resp.tup3 t.1 t.2.1 t.2.2) = some t := by
  have hs0 := merge_tuples_status_ne_none resp
  unfold make_response at h
  rcases hm : merge_tuples resp with ⟨b0, s0, h0⟩
  rw [hm] at h hs0
  simp only at h hs0
  cases h0
  case none => exact Option.noConfusion h
  case bool b => exact Option.noConfusion h
  case int n => exact Option.noConfusion h
  case str s => exact Option.noConfusion h
  case list l => exact Option.noConfusion h
  case dict hs =>
    simp only at h
    obtain ⟨s, ct, hr⟩ :=
      respond_core_spec b0 s0 hs (isNoResp resp) (has_status resp)
    rw [hr] at h
    simp only at h
    have hst1 : isNone (if isNoResp resp || (isEmptyStr b0 && !has_status resp)
        then Py.int 204 else s0) = false := by
      split
      · rfl
      · exact hs0
    have ht : t = (Py.str s,
        (if isNoResp resp || (isEmptyStr b0 && !has_status resp)
          then Py.int 204 else s0), Py.dict (mergeHeaders ct hs)) :=
      (Option.some.inj h).symm
    subst ht
    exact make_response_fixed s _ ct hs hst1

/-- C9 witness: reformatting the formatted plain-text response of a bare
string payload. -/
theorem claim_c9_witness :
    make_response (Resp.tup3 (Py.str (pystr "hi")) (Py.int 200)
      (Py.dict [(pystr "Content-Type", Py.str text_mime)])) =
    some (Py.str (pystr "hi"), Py.int 200,
      Py.dict [(pystr "Content-Type", Py.str text_mime)]) :=
  claim_c9 (Resp.val (Py.str (pystr "hi")))
    (Py.str (pystr "hi"), Py.int 200,
      Py.dict [(pystr "Content-Type", Py.str text_mime)]) rfl

/-- C10.  `Selector.filter` with no `only` restriction treats the
reserved pagination/sorting parameter names like any other key: each
occurrence of `limit`, `offset`, `marker` or `sort` is parsed by the
ordinary per-occurrence loop body, e.g. `limit=10` emits
`{field: limit, op: eq, value: '10'}`, also alongside other keys. -/
theorem claim_c10 :
    (∀ (k arg : Str), Selector.filter ⟨[(k, [arg])]⟩ Option.none Option.none =
      [filter_item Option.none k arg]) ∧
    Selector.filter ⟨[(pystr "limit", [pystr "10"])]⟩ Option.none Option.none =
      [{ field := pystr "limit", op := pystr "eq",
         value := FilterValue.str (pystr "10") }] ∧
    Selector.filter ⟨[(pystr "offset", [pystr "3"])]⟩ Option.none Option.none =
      [{ field := pystr "offset", op := pystr "eq",
         value := FilterValue.str (pystr "3") }] ∧
    Selector.filter ⟨[(pystr "marker", [pystr "m1"])]⟩ Option.none Option.none =
      [{ field := pystr "marker", op := pystr "eq",
         value := FilterValue.str (pystr "m1") }] ∧
    Selector.filter ⟨[(pystr "sort", [pystr "a,b"])]⟩ Option.none Option.none =
      [{ field := pystr "sort", op := pystr "eq",
         value := FilterValue.str (pystr "a,b") }] ∧
    Selector.filter ⟨[(pystr "limit", [pystr "10"]), (pystr "a", [pystr "1"])]⟩
      Option.none Option.none =
      [{ field := pystr "limit", op := pystr "eq",
         value := FilterValue.str (pystr "10") },
       { field := pystr "a", op := pystr "eq",
         value := FilterValue.str (pystr "1") }] := by
  refine ⟨fun k arg => filter_singleton k arg, by decide, by decide, by decide,
    by decide, by decide⟩

end FlaskKit
